import Mathlib

/-!
Verification of the `tiny-game-loop` crate: a fixed-timestep scheduler
(`GameLoop` / `UpdateResult` in `src/lib.rs`) and a per-frame input-state
tracker (`Input` in `src/input.rs`).

Modelling conventions:
* `core::time::Duration` is modelled as a `Nat` counting nanoseconds
  (`Duration` is a non-negative integral nanosecond count; none of the
  scenarios below come anywhere near the `u64`-seconds overflow that would
  make Rust's `Duration` arithmetic panic).
* `u64` counters are modelled as `Nat` (no scenario approaches `2^64`).
* The `f64` field `blending_factor` is modelled as the exact rational
  `accumulated / target`; the division-by-zero behaviour of `f64` is not
  modelled (it only arises in the degenerate `target = 0` configuration,
  where the drain loop does not even terminate, see below).
* The `while accumulated > target` loop of `GameLoop::update` is embedded
  with an explicit fuel parameter (`drainFuel`), because for
  `target_frame_time = 0` the Rust loop does not terminate.  `GameLoop.update`
  runs the loop with fuel `accumulated + clamped + 1`, which is proved
  sufficient whenever `target_frame_time > 0`.
* `FxHashMap<K, V>` is modelled as the partial function `K → Option V`
  (hash maps have no observable ordering; the source only uses `insert`,
  `get`, `retain` and `clear`, all of which are pointwise).
-/

set_option autoImplicit false

namespace TinyGameLoop

/-- Milliseconds, expressed in the nanosecond `Duration` model. -/
def ms (n : Nat) : Nat := n * 1000000

/-- State of `GameLoop` (src/lib.rs, lines 9-16).  Durations in nanoseconds. -/
structure GameLoop where
  target_frame_time : Nat
  max_frame_time : Nat
  accumulated_time : Nat
  total_num_updates : Nat
  total_time_passed : Nat
deriving DecidableEq

/-- Result of `GameLoop::update` (src/lib.rs, lines 100-118). -/
structure UpdateResult where
  num_updates : Nat
  total_num_updates : Nat
  frame_time : Nat
  blending_factor : ℚ
  total_time_passed : Nat
  exit : Bool
deriving DecidableEq

/-- Embeds `GameLoop::new` (src/lib.rs, lines 21-30). -/
def GameLoop.new (target_frame_time max_frame_time : Nat) : GameLoop :=
  { target_frame_time := target_frame_time
    max_frame_time := max_frame_time
    accumulated_time := 0
    total_num_updates := 0
    total_time_passed := 0 }

/-- The drain loop of `GameLoop::update` (src/lib.rs, lines 72-77):
`while accumulated_time > target_frame_time { accumulated_time -= target_frame_time;
num_updates += 1 }`, with explicit fuel.  Returns `(num_updates, accumulated_time)`,
or `none` when the fuel runs out. -/
def drainFuel : Nat → Nat → Nat → Option (Nat × Nat)
  | 0, _, _ => none
  | fuel + 1, target, acc =>
    if acc > target then
      match drainFuel fuel target (acc - target) with
      | none => none
      | some (n, a) => some (n + 1, a)
    else
      some (0, acc)

/-- Embeds `GameLoop::update` (src/lib.rs, lines 63-95) with explicit fuel for the
drain loop.  Returns the new scheduler state together with the `UpdateResult`,
or `none` when the fuel is exhausted (i.e. the Rust loop would still be
running after `fuel` iterations). -/
def GameLoop.updateFuel (fuel : Nat) (gl : GameLoop) (elapsed : Nat) :
    Option (GameLoop × UpdateResult) :=
  match drainFuel fuel gl.target_frame_time
      (gl.accumulated_time +
        (if elapsed > gl.max_frame_time then gl.max_frame_time else elapsed)) with
  | none => none
  | some (n, acc) =>
      some
        ({ gl with
            accumulated_time := acc
            total_num_updates := gl.total_num_updates + n
            total_time_passed := gl.total_time_passed + elapsed },
         { num_updates := n
           total_num_updates := gl.total_num_updates + n
           frame_time := gl.target_frame_time
           blending_factor := (acc : ℚ) / (gl.target_frame_time : ℚ)
           total_time_passed := gl.total_time_passed + elapsed
           exit := false })

/-- Embeds `GameLoop::update` with the canonical fuel `accumulated + clamped + 1`,
which is sufficient whenever `target_frame_time > 0`
(see `GameLoop.update_isSome`). -/
def GameLoop.update (gl : GameLoop) (elapsed : Nat) :
    Option (GameLoop × UpdateResult) :=
  GameLoop.updateFuel
    (gl.accumulated_time +
      (if elapsed > gl.max_frame_time then gl.max_frame_time else elapsed) + 1)
    gl elapsed

/-- Whatever fuel it is run with, a successful drain leaves
`accumulated_time ≤ target_frame_time` (the loop guard is the strict `>`). -/
theorem drainFuel_snd_le (fuel : Nat) :
    ∀ target acc n a, drainFuel fuel target acc = some (n, a) → a ≤ target := by
  induction fuel with
  | zero => intro target acc n a h; simp [drainFuel] at h
  | succ fuel ih =>
    intro target acc n a h
    rw [drainFuel] at h
    by_cases hgt : acc > target
    · rw [if_pos hgt] at h
      cases hm : drainFuel fuel target (acc - target) with
      | none => rw [hm] at h; exact absurd h (by simp)
      | some p =>
        obtain ⟨n1, a1⟩ := p
        rw [hm] at h
        simp only [Option.some.injEq, Prod.mk.injEq] at h
        exact h.2 ▸ ih target (acc - target) n1 a1 hm
    · rw [if_neg hgt] at h
      simp only [Option.some.injEq, Prod.mk.injEq] at h
      omega

/-- With a zero target step, the drain loop never finishes from a positive
accumulator: no amount of fuel makes `drainFuel` succeed. -/
theorem drainFuel_target_zero (acc : Nat) (ha : 0 < acc) :
    ∀ fuel, drainFuel fuel 0 acc = none := by
  intro fuel
  induction fuel with
  | zero => rfl
  | succ fuel ih =>
    rw [drainFuel, if_pos ha, Nat.sub_zero, ih]

/-- For a positive target step, fuel `acc + 1` (indeed any fuel `> acc`)
is enough for the drain loop to finish. -/
theorem drainFuel_isSome (target : Nat) (ht : 0 < target) :
    ∀ fuel acc, acc < fuel → (drainFuel fuel target acc).isSome := by
  intro fuel
  induction fuel with
  | zero => intro acc h; omega
  | succ fuel ih =>
    intro acc hacc
    rw [drainFuel]
    by_cases hgt : acc > target
    · rw [if_pos hgt]
      have h2 : acc - target < fuel := by omega
      have := ih (acc - target) h2
      cases hm : drainFuel fuel target (acc - target) with
      | none => rw [hm] at this; simp at this
      | some p => obtain ⟨n1, a1⟩ := p; simp
    · rw [if_neg hgt]; simp

/-- The canonical-fuel `GameLoop.update` always succeeds when the target step is positive. -/
theorem GameLoop.update_isSome (gl : GameLoop) (elapsed : Nat)
    (ht : 0 < gl.target_frame_time) : (gl.update elapsed).isSome := by
  rw [GameLoop.update, GameLoop.updateFuel]
  have := drainFuel_isSome gl.target_frame_time ht
    (gl.accumulated_time +
      (if elapsed > gl.max_frame_time then gl.max_frame_time else elapsed) + 1)
    (gl.accumulated_time +
      (if elapsed > gl.max_frame_time then gl.max_frame_time else elapsed))
    (by omega)
  cases hm : drainFuel
      (gl.accumulated_time +
        (if elapsed > gl.max_frame_time then gl.max_frame_time else elapsed) + 1)
      gl.target_frame_time
      (gl.accumulated_time +
        (if elapsed > gl.max_frame_time then gl.max_frame_time else elapsed)) with
  | none => rw [hm] at this; simp at this
  | some p => obtain ⟨n1, a1⟩ := p; simp

/-- After any successful `updateFuel`, the drained accumulator is at most the
target step (the drain guard is the strict `accumulated > target`). -/
theorem updateFuel_accumulated_le (fuel : Nat) (gl gl' : GameLoop)
    (elapsed : Nat) (h : (GameLoop.updateFuel fuel gl elapsed).map Prod.fst = some gl') :
    gl'.accumulated_time ≤ gl.target_frame_time := by
  rw [GameLoop.updateFuel] at h
  cases hm : drainFuel fuel gl.target_frame_time
      (gl.accumulated_time +
        (if elapsed > gl.max_frame_time then gl.max_frame_time else elapsed)) with
  | none => rw [hm] at h; exact absurd h (by simp)
  | some p =>
    obtain ⟨n1, a1⟩ := p
    rw [hm] at h
    simp only [Option.map_some', Option.some.injEq] at h
    rw [← h]
    exact drainFuel_snd_le _ _ _ _ _ hm

/-- Claim C1 (amended): after `update` with a positive target step, the
accumulated time is at most `target_frame_time` (the drain guard is the
strict `accumulated > target`, so `accumulated = target` can remain). -/
theorem C1_accumulated_le_target (gl gl' : GameLoop)
    (elapsed : Nat) (ht : 0 < gl.target_frame_time)
    (h : (gl.update elapsed).map Prod.fst = some gl') :
    gl'.accumulated_time ≤ gl.target_frame_time :=
  updateFuel_accumulated_le _ gl gl' elapsed h

theorem C1_witness :
    (0 : Nat) < ms 16 ∧
      ((GameLoop.new (ms 16) (ms 100)).update (ms 16)).map Prod.fst =
        some ⟨ms 16, ms 100, ms 16, 0, ms 16⟩ ∧
      (ms 16 : Nat) ≤ ms 16 :=
  ⟨by decide, by decide,
    C1_accumulated_le_target (GameLoop.new (ms 16) (ms 100))
      ⟨ms 16, ms 100, ms 16, 0, ms 16⟩
      (ms 16) (by decide) (by decide)⟩

/-- Claim C1, counterexample to the claim as stated: from a fresh scheduler
with `target_step = 16ms`, `max_step = 100ms`, a single `update(16ms)` leaves
`accumulated_time = 16ms`, which is NOT strictly less than `target_step`. -/
theorem C1_counterexample :
    ((GameLoop.new (ms 16) (ms 100)).update (ms 16)).map
        (fun p => p.1.accumulated_time) = some (ms 16) ∧
      ¬ (ms 16 < ms 16) := by
  constructor
  · decide
  · decide

/-- Claim C3: fresh scheduler with `max_step = 100ms`, `target_step = 16ms`:
a single `update(500ms)` yields `num_updates = 6`, leaves
`accumulated_time = 4ms` (only 100ms entered the accumulator, the excess
400ms was discarded), while `total_time_passed` gains the full unclamped
500ms. -/
theorem C3_clamp_discards_excess :
    ((GameLoop.new (ms 16) (ms 100)).update (ms 500)).map
        (fun p =>
          (p.2.num_updates, p.1.accumulated_time, p.2.total_time_passed,
            p.1.total_time_passed)) =
      some (6, ms 4, ms 500, ms 500) := by
  decide

/-- With a zero target step and a positive accumulator contribution, no fuel
bound makes the embedded update loop return. -/
theorem updateFuel_target_zero (gl : GameLoop) (elapsed : Nat)
    (ht : gl.target_frame_time = 0)
    (ha : 0 < gl.accumulated_time +
        (if elapsed > gl.max_frame_time then gl.max_frame_time else elapsed)) :
    ∀ fuel, GameLoop.updateFuel fuel gl elapsed = none := by
  intro fuel
  rw [GameLoop.updateFuel, ht, drainFuel_target_zero _ ha]

/-- Claim C4 (amended): with `target_frame_time = 0`, `update` is NOT a
terminating operation: whenever the previously accumulated time plus the
clamped elapsed is positive, the drain loop never exits, i.e. no fuel bound
makes the embedded loop return. -/
theorem C4_target_zero_diverges (gl : GameLoop) (elapsed : Nat)
    (ht : gl.target_frame_time = 0)
    (ha : 0 < gl.accumulated_time +
        (if elapsed > gl.max_frame_time then gl.max_frame_time else elapsed)) :
    ∀ fuel, GameLoop.updateFuel fuel gl elapsed = none :=
  updateFuel_target_zero gl elapsed ht ha

theorem C4_witness :
    (GameLoop.new 0 (ms 100)).target_frame_time = 0 ∧
      0 < (GameLoop.new 0 (ms 100)).accumulated_time +
        (if ms 16 > (GameLoop.new 0 (ms 100)).max_frame_time then
          (GameLoop.new 0 (ms 100)).max_frame_time else ms 16) ∧
      GameLoop.updateFuel 7 (GameLoop.new 0 (ms 100)) (ms 16) = none :=
  ⟨rfl, by decide,
    C4_target_zero_diverges (GameLoop.new 0 (ms 100)) (ms 16) rfl (by decide) 7⟩

/-- Claim C4, counterexample to the claim as stated: with `target_step = 0`
(`max_step = 100ms`), `update(16ms)` does not terminate — the drain loop fails
for every fuel bound, so there is no returned result at all (in particular no
non-finite blending factor is ever produced). -/
theorem C4_counterexample :
    ¬ ∃ fuel,
        (GameLoop.updateFuel fuel (GameLoop.new 0 (ms 100)) (ms 16)).isSome = true := by
  rintro ⟨fuel, hs⟩
  rw [updateFuel_target_zero (GameLoop.new 0 (ms 100)) (ms 16) rfl (by decide) fuel] at hs
  exact absurd hs (by simp)

/-- Scheduler state after `n` calls of `update(16ms)` starting from
`GameLoop::new(16ms, max)` (the §8 boundary scenario of the spec). -/
def c2Iter (max : Nat) : Nat → Option GameLoop
  | 0 => some (GameLoop.new (ms 16) max)
  | n + 1 => (c2Iter max n).bind fun gl => (gl.update (ms 16)).map Prod.fst

/-- The `num_updates` returned by call number `n + 1` in the §8 boundary
scenario. -/
def c2Steps (max n : Nat) : Option Nat :=
  (c2Iter max n).bind fun gl => (gl.update (ms 16)).map fun p => p.2.num_updates

theorem c2_update_first (max : Nat) (hmax : ms 16 ≤ max) :
    ∃ gl', ((GameLoop.new (ms 16) max).update (ms 16)).map Prod.fst = some gl' ∧
      gl'.target_frame_time = ms 16 ∧ gl'.max_frame_time = max ∧
      gl'.accumulated_time = ms 16 ∧
      ((GameLoop.new (ms 16) max).update (ms 16)).map (fun p => p.2.num_updates) =
        some 0 := by
  have hc : ¬ (ms 16 > max) := by omega
  simp only [GameLoop.update, GameLoop.updateFuel, GameLoop.new, if_neg hc,
    Nat.zero_add]
  have hd : drainFuel (ms 16 + 1) (ms 16) (ms 16) = some (0, ms 16) := by decide
  rw [hd]
  exact ⟨_, rfl, rfl, rfl, rfl, rfl⟩

theorem c2_update_step (gl : GameLoop) (h1 : gl.target_frame_time = ms 16)
    (h2 : ms 16 ≤ gl.max_frame_time) (h3 : gl.accumulated_time = ms 16) :
    ∃ gl', (gl.update (ms 16)).map Prod.fst = some gl' ∧
      gl'.target_frame_time = ms 16 ∧ gl'.max_frame_time = gl.max_frame_time ∧
      gl'.accumulated_time = ms 16 ∧
      (gl.update (ms 16)).map (fun p => p.2.num_updates) = some 1 := by
  have hc : ¬ (ms 16 > gl.max_frame_time) := by omega
  simp only [GameLoop.update, GameLoop.updateFuel, h1, h3, if_neg hc]
  have hd : drainFuel (ms 16 + ms 16 + 1) (ms 16) (ms 16 + ms 16) =
      some (1, ms 16) := by decide
  rw [hd]
  exact ⟨_, rfl, rfl, rfl, rfl, rfl⟩

theorem c2_invariant (max : Nat) (hmax : ms 16 ≤ max) :
    ∀ n, ∃ gl, c2Iter max (n + 1) = some gl ∧ gl.target_frame_time = ms 16 ∧
      gl.max_frame_time = max ∧ gl.accumulated_time = ms 16 := by
  intro n
  induction n with
  | zero =>
    obtain ⟨gl', hmap, h1, h2, h3, _⟩ := c2_update_first max hmax
    exact ⟨gl', by rw [c2Iter, c2Iter]; exact hmap, h1, h2, h3⟩
  | succ n ih =>
    obtain ⟨gl, hiter, h1, h2, h3⟩ := ih
    obtain ⟨gl', hmap, h1', h2', h3', _⟩ :=
      c2_update_step gl h1 (by rw [h2]; exact hmax) h3
    refine ⟨gl', ?_, h1', by rw [h2', h2], h3'⟩
    rw [c2Iter, hiter]
    exact hmap

/-- Claim C2 (amended): with `target_step = 16ms` and `max_step ≥ 16ms`,
repeated `update(16ms)` calls return `num_updates = 0` on the first call
(the tick that lands exactly on the boundary triggers no step, since the
drain comparison is strict) and `num_updates = 1` on EVERY subsequent call
(the accumulator stays pinned at exactly `16ms` after each call, so each
later tick drains exactly one step). -/
theorem C2_first_zero_then_ones (max : Nat) (hmax : ms 16 ≤ max) :
    c2Steps max 0 = some 0 ∧ ∀ n, c2Steps max (n + 1) = some 1 := by
  constructor
  · obtain ⟨gl', _, _, _, _, hnum⟩ := c2_update_first max hmax
    rw [c2Steps, c2Iter]
    exact hnum
  · intro n
    obtain ⟨gl, hiter, h1, h2, h3⟩ := c2_invariant max hmax n
    obtain ⟨gl', _, _, _, _, hnum⟩ :=
      c2_update_step gl h1 (by rw [h2]; exact hmax) h3
    rw [c2Steps, hiter]
    exact hnum

theorem C2_witness :
    (ms 16 : Nat) ≤ ms 100 ∧ c2Steps (ms 100) 0 = some 0 ∧
      c2Steps (ms 100) 5 = some 1 :=
  ⟨by decide, (C2_first_zero_then_ones (ms 100) (by decide)).1,
    (C2_first_zero_then_ones (ms 100) (by decide)).2 4⟩

/-- Claim C2, counterexample to the claim as stated: the claimed alternating
pattern 0,1,0,1,… requires the THIRD call (index 2) to return 0, but the code
returns `num_updates = 1` there (and on every call after the first). -/
theorem C2_counterexample :
    ¬ (c2Steps (ms 100) 2 = some 0) ∧ c2Steps (ms 100) 2 = some 1 :=
  ⟨by decide, by decide⟩

/-- The loop of `UpdateResult::run` (src/lib.rs, lines 130-136): the iteration
count is the value of `num_updates` when the loop starts (a Rust `for` range
is evaluated once), each iteration applies `func` to the current state and
stops if the resulting state has `exit` set. -/
def UpdateResult.runAux (func : UpdateResult → UpdateResult) :
    Nat → UpdateResult → UpdateResult
  | 0, r => r
  | n + 1, r => if (func r).exit then func r else UpdateResult.runAux func n (func r)

/-- Embeds `UpdateResult::run` (src/lib.rs, lines 126-139). -/
def UpdateResult.run (r : UpdateResult) (func : UpdateResult → UpdateResult) :
    UpdateResult :=
  UpdateResult.runAux func r.num_updates r

/-- Instrumented variant of `runAux` that also counts how many times `func`
is invoked. -/
def UpdateResult.runAuxCount (func : UpdateResult → UpdateResult) :
    Nat → UpdateResult → UpdateResult × Nat
  | 0, r => (r, 0)
  | n + 1, r =>
    if (func r).exit then (func r, 1)
    else
      ((UpdateResult.runAuxCount func n (func r)).1,
        (UpdateResult.runAuxCount func n (func r)).2 + 1)

/-- Embeds `UpdateResult::run` together with the number of callback invocations. -/
def UpdateResult.runCount (r : UpdateResult) (func : UpdateResult → UpdateResult) :
    UpdateResult × Nat :=
  UpdateResult.runAuxCount func r.num_updates r

/-- The loop of `UpdateResult::run_result` (src/lib.rs, lines 150-156): each
iteration applies `func`; an `Err` is returned immediately (the `?` operator),
otherwise the loop stops if the new state has `exit` set. -/
def UpdateResult.runResultAux {E : Type} (func : UpdateResult → Except E UpdateResult) :
    Nat → UpdateResult → Except E UpdateResult
  | 0, r => .ok r
  | n + 1, r =>
    match func r with
    | .error e => .error e
    | .ok r1 => if r1.exit then .ok r1 else UpdateResult.runResultAux func n r1

/-- Embeds `UpdateResult::run_result` (src/lib.rs, lines 146-159). -/
def UpdateResult.run_result {E : Type} (r : UpdateResult)
    (func : UpdateResult → Except E UpdateResult) : Except E UpdateResult :=
  UpdateResult.runResultAux func r.num_updates r

/-- Instrumented variant of `runResultAux` counting callback invocations
(the erroring invocation included). -/
def UpdateResult.runResultAuxCount {E : Type}
    (func : UpdateResult → Except E UpdateResult) :
    Nat → UpdateResult → Except E UpdateResult × Nat
  | 0, r => (.ok r, 0)
  | n + 1, r =>
    match func r with
    | .error e => (.error e, 1)
    | .ok r1 =>
      if r1.exit then (.ok r1, 1)
      else
        ((UpdateResult.runResultAuxCount func n r1).1,
          (UpdateResult.runResultAuxCount func n r1).2 + 1)

/-- Embeds `UpdateResult::run_result` together with the number of callback
invocations. -/
def UpdateResult.runResultCount {E : Type} (r : UpdateResult)
    (func : UpdateResult → Except E UpdateResult) : Except E UpdateResult × Nat :=
  UpdateResult.runResultAuxCount func r.num_updates r

theorem runAux_eq_fst (func : UpdateResult → UpdateResult) :
    ∀ n r, UpdateResult.runAux func n r = (UpdateResult.runAuxCount func n r).1 := by
  intro n
  induction n with
  | zero => intro r; rfl
  | succ n ih =>
    intro r
    rw [UpdateResult.runAux, UpdateResult.runAuxCount]
    by_cases hx : (func r).exit
    · rw [if_pos hx, if_pos hx]
    · rw [if_neg hx, if_neg hx, ih]

theorem runResultAux_eq_fst {E : Type} (func : UpdateResult → Except E UpdateResult) :
    ∀ n r,
      UpdateResult.runResultAux func n r = (UpdateResult.runResultAuxCount func n r).1 := by
  intro n
  induction n with
  | zero => intro r; rfl
  | succ n ih =>
    intro r
    rw [UpdateResult.runResultAux, UpdateResult.runResultAuxCount]
    cases func r with
    | error e => rfl
    | ok r1 =>
      dsimp only
      by_cases hx : r1.exit
      · rw [if_pos hx, if_pos hx]
      · rw [if_neg hx, if_neg hx, ih]

/-- If no invocation along the run sets the exit flag, the loop performs all
`n` iterations: the result is the `n`-fold iterate and `func` is invoked
exactly `n` times. -/
theorem runAuxCount_no_exit (func : UpdateResult → UpdateResult) :
    ∀ n r, (∀ i, i ≤ n → 1 ≤ i → (func^[i] r).exit = false) →
      UpdateResult.runAuxCount func n r = (func^[n] r, n) := by
  intro n
  induction n with
  | zero => intro r _; rfl
  | succ n ih =>
    intro r h
    have h1 : (func r).exit = false := by
      have := h 1 (by omega) (by omega)
      rwa [Function.iterate_one] at this
    rw [UpdateResult.runAuxCount, if_neg (by rw [h1]; exact Bool.false_ne_true)]
    have hrec : UpdateResult.runAuxCount func n (func r) = (func^[n] (func r), n) := by
      apply ih
      intro i hi h1i
      rw [← Function.iterate_succ_apply]
      exact h (i + 1) (by omega) (by omega)
    rw [hrec, ← Function.iterate_succ_apply]

/-- If the first `k` invocations leave the exit flag clear and invocation
`k + 1` sets it, the loop stops right there: the result is the `(k+1)`-fold
iterate and `func` is invoked exactly `k + 1` times. -/
theorem runAuxCount_exit_at (func : UpdateResult → UpdateResult) :
    ∀ k n r, k < n → (∀ i, i ≤ k → 1 ≤ i → (func^[i] r).exit = false) →
      (func^[k + 1] r).exit = true →
      UpdateResult.runAuxCount func n r = (func^[k + 1] r, k + 1) := by
  intro k
  induction k with
  | zero =>
    intro n r hn _ hx
    obtain ⟨m, rfl⟩ : ∃ m, n = m + 1 := ⟨n - 1, by omega⟩
    rw [Function.iterate_one] at hx
    rw [UpdateResult.runAuxCount, if_pos hx, Function.iterate_one]
  | succ k ih =>
    intro n r hn h hx
    obtain ⟨m, rfl⟩ : ∃ m, n = m + 1 := ⟨n - 1, by omega⟩
    have h1 : (func r).exit = false := by
      have := h 1 (by omega) (by omega)
      rwa [Function.iterate_one] at this
    rw [UpdateResult.runAuxCount, if_neg (by rw [h1]; exact Bool.false_ne_true)]
    have hrec : UpdateResult.runAuxCount func m (func r) = (func^[k + 1] (func r), k + 1) := by
      apply ih m (func r) (by omega)
      · intro i hi h1i
        rw [← Function.iterate_succ_apply]
        exact h (i + 1) (by omega) (by omega)
      · rw [← Function.iterate_succ_apply]
        exact hx
    rw [hrec, ← Function.iterate_succ_apply]

/-- When the callback always succeeds (`func = .ok ∘ g`), `run_result`'s loop
behaves exactly like `run`'s loop with `g`, with the same invocation count. -/
theorem runResultAuxCount_pure {E : Type} (g : UpdateResult → UpdateResult)
    (func : UpdateResult → Except E UpdateResult) (hg : ∀ s, func s = .ok (g s)) :
    ∀ n r, UpdateResult.runResultAuxCount func n r =
      (Except.ok (UpdateResult.runAux g n r), (UpdateResult.runAuxCount g n r).2) := by
  intro n
  induction n with
  | zero => intro r; rfl
  | succ n ih =>
    intro r
    rw [UpdateResult.runResultAuxCount, UpdateResult.runAux, UpdateResult.runAuxCount,
      hg r]
    dsimp only
    by_cases hx : (g r).exit
    · rw [if_pos hx, if_pos hx, if_pos hx]
    · rw [if_neg hx, if_neg hx, if_neg hx, ih]

/-- If the first `k` callback invocations succeed without setting the exit
flag and invocation `k + 1` fails with `e`, the loop returns `.error e`
unchanged after exactly `k + 1` invocations. -/
theorem runResultAuxCount_error_at {E : Type}
    (func : UpdateResult → Except E UpdateResult) (g : UpdateResult → UpdateResult)
    (e : E) :
    ∀ k n r, k < n →
      (∀ i, i < k → func (g^[i] r) = .ok (g^[i + 1] r)) →
      (∀ i, i ≤ k → 1 ≤ i → (g^[i] r).exit = false) →
      func (g^[k] r) = .error e →
      UpdateResult.runResultAuxCount func n r = (.error e, k + 1) := by
  intro k
  induction k with
  | zero =>
    intro n r hn _ _ herr
    obtain ⟨m, rfl⟩ : ∃ m, n = m + 1 := ⟨n - 1, by omega⟩
    rw [Function.iterate_zero_apply] at herr
    rw [UpdateResult.runResultAuxCount, herr]
  | succ k ih =>
    intro n r hn hok hnx herr
    obtain ⟨m, rfl⟩ : ∃ m, n = m + 1 := ⟨n - 1, by omega⟩
    have hok0 : func r = .ok (g^[1] r) := by
      have := hok 0 (by omega)
      rwa [Function.iterate_zero_apply] at this
    rw [Function.iterate_one] at hok0
    have h1 : (g r).exit = false := by
      have := hnx 1 (by omega) (by omega)
      rwa [Function.iterate_one] at this
    rw [UpdateResult.runResultAuxCount, hok0]
    dsimp only
    rw [if_neg (by rw [h1]; exact Bool.false_ne_true)]
    have hrec : UpdateResult.runResultAuxCount func m (g r) = (.error e, k + 1) := by
      apply ih m (g r) (by omega)
      · intro i hi
        rw [← Function.iterate_succ_apply, ← Function.iterate_succ_apply]
        exact hok (i + 1) (by omega)
      · intro i hi h1i
        rw [← Function.iterate_succ_apply]
        exact hnx (i + 1) (by omega) (by omega)
      · rw [← Function.iterate_succ_apply]
        exact herr
    rw [hrec]

/-- Claim C7: starting with a clear exit flag, `run` invokes the callback
exactly `num_updates` times when no invocation sets the exit flag; if
invocation `k + 1 ≤ num_updates` is the first to set the flag, the callback
is invoked exactly `k + 1` times and the remaining steps are skipped. -/
theorem C7_run_invocations (r : UpdateResult) (func : UpdateResult → UpdateResult)
    (h0 : r.exit = false) :
    ((∀ i, i ≤ r.num_updates → 1 ≤ i → (func^[i] r).exit = false) →
      r.run func = func^[r.num_updates] r ∧ (r.runCount func).2 = r.num_updates) ∧
    (∀ k, k < r.num_updates →
      (∀ i, i ≤ k → 1 ≤ i → (func^[i] r).exit = false) →
      (func^[k + 1] r).exit = true →
      r.run func = func^[k + 1] r ∧ (r.runCount func).2 = k + 1) := by
  constructor
  · intro h
    have hc := runAuxCount_no_exit func r.num_updates r h
    constructor
    · rw [UpdateResult.run, runAux_eq_fst, hc]
    · rw [UpdateResult.runCount, hc]
  · intro k hk h hx
    have hc := runAuxCount_exit_at func k r.num_updates r hk h hx
    constructor
    · rw [UpdateResult.run, runAux_eq_fst, hc]
    · rw [UpdateResult.runCount, hc]

/-- A sample update result: 2 pending updates, exit flag clear. -/
def rSample : UpdateResult := ⟨2, 0, ms 16, 0, 0, false⟩

/-- A sample update result: 2 pending updates, exit flag already set. -/
def rSampleExit : UpdateResult := ⟨2, 0, ms 16, 0, 0, true⟩

/-- Sample callback: bumps a counter, never touches the exit flag. -/
def fIncr (s : UpdateResult) : UpdateResult :=
  { s with total_num_updates := s.total_num_updates + 1 }

/-- Sample callback: sets the exit flag. -/
def fSetExit (s : UpdateResult) : UpdateResult := { s with exit := true }

/-- Sample callback: clears the exit flag. -/
def fClearExit (s : UpdateResult) : UpdateResult := { s with exit := false }

/-- Sample fallible callback: always succeeds, acting like `fIncr`. -/
def fOkIncr (s : UpdateResult) : Except Nat UpdateResult := .ok (fIncr s)

/-- Sample fallible callback: always fails with error `7`. -/
def fErr7 (_s : UpdateResult) : Except Nat UpdateResult := .error 7

/-- Sample fallible callback: succeeds and sets the exit flag. -/
def fOkExit (s : UpdateResult) : Except Nat UpdateResult := .ok (fSetExit s)

theorem C7_witness :
    rSample.exit = false ∧
    (∀ i, i ≤ rSample.num_updates → 1 ≤ i → (fIncr^[i] rSample).exit = false) ∧
    (rSample.run fIncr = fIncr^[rSample.num_updates] rSample ∧
      (rSample.runCount fIncr).2 = rSample.num_updates) ∧
    ((0 : Nat) < rSample.num_updates ∧ (fSetExit^[0 + 1] rSample).exit = true) ∧
    (rSample.run fSetExit = fSetExit^[0 + 1] rSample ∧
      (rSample.runCount fSetExit).2 = 0 + 1) :=
  ⟨rfl, by decide,
    (C7_run_invocations rSample fIncr rfl).1 (by decide),
    ⟨by decide, by decide⟩,
    (C7_run_invocations rSample fSetExit rfl).2 0 (by decide)
      (fun i hi h1 => absurd (h1.trans hi) (by decide)) (by decide)⟩

/-- Claim C8: `run_result` passes callback failures through unchanged and
stops at the first failure.  If every invocation succeeds (`func = .ok ∘ g`),
it returns `.ok` with exactly the invocations `run` would perform with `g`;
if the first `k` invocations succeed without setting the exit flag and
invocation `k + 1` fails with `e`, it returns `.error e` after exactly
`k + 1` invocations. -/
theorem C8_run_result_propagation {E : Type} (r : UpdateResult)
    (func : UpdateResult → Except E UpdateResult)
    (g : UpdateResult → UpdateResult) (e : E) :
    ((∀ s, func s = .ok (g s)) →
      r.run_result func = .ok (r.run g) ∧
        (r.runResultCount func).2 = (r.runCount g).2) ∧
    (∀ k, k < r.num_updates →
      (∀ i, i < k → func (g^[i] r) = .ok (g^[i + 1] r)) →
      (∀ i, i ≤ k → 1 ≤ i → (g^[i] r).exit = false) →
      func (g^[k] r) = .error e →
      r.run_result func = .error e ∧ (r.runResultCount func).2 = k + 1) := by
  constructor
  · intro hg
    have hc := runResultAuxCount_pure g func hg r.num_updates r
    constructor
    · rw [UpdateResult.run_result, runResultAux_eq_fst, hc, UpdateResult.run,
        runAux_eq_fst]
    · rw [UpdateResult.runResultCount, hc, UpdateResult.runCount]
  · intro k hk hok hnx herr
    have hc := runResultAuxCount_error_at func g e k r.num_updates r hk hok hnx herr
    constructor
    · rw [UpdateResult.run_result, runResultAux_eq_fst, hc]
    · rw [UpdateResult.runResultCount, hc]

theorem C8_witness :
    (rSample.run_result fOkIncr = .ok (rSample.run fIncr) ∧
      (rSample.runResultCount fOkIncr).2 = (rSample.runCount fIncr).2) ∧
    ((0 : Nat) < rSample.num_updates) ∧
    (rSample.run_result fErr7 = .error 7 ∧
      (rSample.runResultCount fErr7).2 = 0 + 1) :=
  ⟨(C8_run_result_propagation rSample fOkIncr fIncr 7).1 (fun _s => rfl),
    by decide,
    (C8_run_result_propagation rSample fErr7 fIncr 7).2 0 (by decide)
      (fun i hi => absurd hi (Nat.not_lt_zero i))
      (fun i hi h1 => absurd (h1.trans hi) (by decide)) rfl⟩

/-- Claim C10 (amended): when `num_updates ≥ 1` the callback is invoked at
least once whatever the initial value of the exit flag (the flag is examined
only after each invocation, never before the first one); it is invoked
exactly once when its first invocation leaves the exit flag set (resp.
returns `.ok` with the flag set, for `run_result`). -/
theorem C10_exit_examined_after_invocation {E : Type} (r r1 : UpdateResult)
    (func : UpdateResult → UpdateResult)
    (funcR : UpdateResult → Except E UpdateResult)
    (hn : 1 ≤ r.num_updates) :
    (1 ≤ (r.runCount func).2) ∧
    ((func r).exit = true → r.run func = func r ∧ (r.runCount func).2 = 1) ∧
    (1 ≤ (r.runResultCount funcR).2 ∨ (r.runResultCount funcR).2 = 1) ∧
    (funcR r = .ok r1 → r1.exit = true →
      r.run_result funcR = .ok r1 ∧ (r.runResultCount funcR).2 = 1) := by
  obtain ⟨m, hm⟩ : ∃ m, r.num_updates = m + 1 := ⟨r.num_updates - 1, by omega⟩
  refine ⟨?_, ?_, ?_, ?_⟩
  · rw [UpdateResult.runCount, hm, UpdateResult.runAuxCount]
    by_cases hx : (func r).exit
    · rw [if_pos hx]
    · rw [if_neg hx]
      exact Nat.succ_le_succ (Nat.zero_le _)
  · intro hx
    constructor
    · rw [UpdateResult.run, hm, UpdateResult.runAux, if_pos hx]
    · rw [UpdateResult.runCount, hm, UpdateResult.runAuxCount, if_pos hx]
  · left
    rw [UpdateResult.runResultCount, hm, UpdateResult.runResultAuxCount]
    cases funcR r with
    | error e => exact Nat.le_refl 1
    | ok r2 =>
      dsimp only
      by_cases hx : r2.exit
      · rw [if_pos hx]
      · rw [if_neg hx]
        exact Nat.succ_le_succ (Nat.zero_le _)
  · intro hok hx
    constructor
    · rw [UpdateResult.run_result, hm, UpdateResult.runResultAux, hok]
      dsimp only
      rw [if_pos hx]
    · rw [UpdateResult.runResultCount, hm, UpdateResult.runResultAuxCount, hok]
      dsimp only
      rw [if_pos hx]

theorem C10_witness :
    1 ≤ rSampleExit.num_updates ∧
    (1 ≤ (rSampleExit.runCount fSetExit).2) ∧
    ((fSetExit rSampleExit).exit = true) ∧
    (rSampleExit.run fSetExit = fSetExit rSampleExit ∧
      (rSampleExit.runCount fSetExit).2 = 1) ∧
    (fOkExit rSampleExit = .ok (fSetExit rSampleExit)) ∧
    ((fSetExit rSampleExit).exit = true) ∧
    (rSampleExit.run_result fOkExit = .ok (fSetExit rSampleExit) ∧
      (rSampleExit.runResultCount fOkExit).2 = 1) :=
  ⟨by decide,
    (C10_exit_examined_after_invocation rSampleExit (fSetExit rSampleExit)
      fSetExit fOkExit (by decide)).1,
    rfl,
    (C10_exit_examined_after_invocation rSampleExit (fSetExit rSampleExit)
      fSetExit fOkExit (by decide)).2.1 rfl,
    rfl, rfl,
    (C10_exit_examined_after_invocation rSampleExit (fSetExit rSampleExit)
      fSetExit fOkExit (by decide)).2.2.2 rfl rfl⟩

/-- Claim C10, counterexample to the claim as stated: with the exit flag
already set and `num_updates = 2`, a callback that CLEARS the exit flag is
invoked twice, not "exactly once" — the initial flag value is never examined,
and after the first invocation the flag is clear, so the loop continues. -/
theorem C10_counterexample :
    rSampleExit.exit = true ∧ 1 ≤ rSampleExit.num_updates ∧
      (rSampleExit.runCount fClearExit).2 = 2 ∧ (2 : Nat) ≠ 1 :=
  ⟨rfl, by decide, by decide, by decide⟩

/-- Embeds `InputState` (src/input.rs, lines 33-42). -/
inductive InputState where
  | Pressed
  | Down
  | Released
deriving DecidableEq

/-- Embeds `InputState::is_pressed` (src/input.rs, lines 47-49). -/
def InputState.is_pressed : InputState → Bool
  | .Pressed => true
  | _ => false

/-- Embeds `InputState::is_any_down` (src/input.rs, lines 53-55). -/
def InputState.is_any_down : InputState → Bool
  | .Pressed => true
  | .Down => true
  | _ => false

/-- Embeds `InputState::is_released` (src/input.rs, lines 59-61). -/
def InputState.is_released : InputState → Bool
  | .Released => true
  | _ => false

/-- Embeds `KeyMods` (src/input.rs, lines 12-29); defaults are all-false. -/
structure KeyMods where
  lshift : Bool := false
  rshift : Bool := false
  lalt : Bool := false
  ralt : Bool := false
  lcontrol : Bool := false
  rcontrol : Bool := false
  lsuper : Bool := false
  rsuper : Bool := false
deriving DecidableEq

/-- Embeds `InputEvent` (src/input.rs, lines 279-293), already converted from the
host event type (the `EventTrait::convert` adapter is the external
collaborator); key-space identifier types are parameters, mouse coordinates
are modelled as exact rationals. -/
inductive InputEvent (P L M : Type) where
  | Key (physical_key : P) (logical_key : Option L) (rep : Bool) (state : InputState)
  | Modifiers (mods : KeyMods)
  | MouseMoved (x y : ℚ)
  | MouseButton (button : M) (state : InputState)
  | MouseScroll (x y : ℚ)

/-- Embeds `Input` (src/input.rs, lines 66-73); each `FxHashMap` is modelled as the
partial function from keys to states. -/
structure Input (P L M : Type) where
  mods : KeyMods
  physical_keys : P → Option InputState
  logical_keys : L → Option InputState
  mouse_buttons : M → Option InputState
  mouse_pos : ℚ × ℚ
  mouse_scroll : ℚ × ℚ

/-- Embeds `Input::new` (src/input.rs, lines 80-89). -/
def Input.new {P L M : Type} : Input P L M :=
  { mods := {}
    physical_keys := fun _ => none
    logical_keys := fun _ => none
    mouse_buttons := fun _ => none
    mouse_pos := (0, 0)
    mouse_scroll := (0, 0) }

/-- Embeds `Input::clear` (src/input.rs, lines 91-98). -/
def Input.clear {P L M : Type} (_i : Input P L M) : Input P L M :=
  { mods := {}
    physical_keys := fun _ => none
    logical_keys := fun _ => none
    mouse_buttons := fun _ => none
    mouse_pos := (0, 0)
    mouse_scroll := (0, 0) }

/-- Embeds `HashMap::insert` on the partial-function model of a map. -/
def mapInsert {K : Type} [DecidableEq K] (m : K → Option InputState) (k : K)
    (v : InputState) : K → Option InputState :=
  fun k' => if k' = k then some v else m k'

/-- The `retain` closure of `Input::update_keys` (src/input.rs, lines
208-215), applied pointwise to one map: `Pressed` entries become `Down`,
`Down` entries stay, `Released` entries are dropped. -/
def ageMap {K : Type} (m : K → Option InputState) : K → Option InputState :=
  fun k =>
    match m k with
    | some .Pressed => some .Down
    | some .Down => some .Down
    | some .Released => none
    | none => none

/-- Embeds `Input::update_keys` (src/input.rs, lines 207-234): the same retain pass
over the three maps. -/
def Input.update_keys {P L M : Type} (i : Input P L M) : Input P L M :=
  { i with
    physical_keys := ageMap i.physical_keys
    logical_keys := ageMap i.logical_keys
    mouse_buttons := ageMap i.mouse_buttons }

/-- Embeds `Input::process_event` (src/input.rs, lines 236-267), after the
`event.convert()` adapter has produced an `InputEvent`. -/
def Input.process_event {P L M : Type} [DecidableEq P] [DecidableEq L]
    [DecidableEq M] (i : Input P L M) (e : InputEvent P L M) : Input P L M :=
  match e with
  | .Modifiers mods => { i with mods := mods }
  | .Key physical_key logical_key rep state =>
    if rep then i
    else
      { i with
        physical_keys := mapInsert i.physical_keys physical_key state
        logical_keys :=
          match logical_key with
          | some l => mapInsert i.logical_keys l state
          | none => i.logical_keys }
  | .MouseButton button state =>
    { i with mouse_buttons := mapInsert i.mouse_buttons button state }
  | .MouseMoved x y => { i with mouse_pos := (x, y) }
  | .MouseScroll x y => { i with mouse_scroll := (x, y) }

/-- The outer body of `Input::process_event` (src/input.rs, line 237): a host
event that the adapter does not convert leaves the tracker untouched. -/
def Input.process_converted {P L M : Type} [DecidableEq P] [DecidableEq L]
    [DecidableEq M] (i : Input P L M) (e : Option (InputEvent P L M)) :
    Input P L M :=
  match e with
  | some e => i.process_event e
  | none => i

/-- The aging transform of a single map entry, as §3/§4.2 of the spec words
it: `Pressed` becomes `Down`, `Down` remains `Down`, `Released` is removed,
absent stays absent.  (Spec-side restatement, compared against `ageMap` which
is translated from the source `retain` closure.) -/
def ageEntrySpec : Option InputState → Option InputState
  | some .Pressed => some .Down
  | some .Down => some .Down
  | some .Released => none
  | none => none

/-- Claim C5: `update_keys` transforms the three maps independently and
pointwise by the aging transform (Pressed becomes Down, Down stays, Released
is removed), and immediately afterwards no entry of any map is `Released`. -/
theorem C5_update_keys_ages_all_maps {P L M : Type} (i : Input P L M) :
    (∀ pk, i.update_keys.physical_keys pk = ageEntrySpec (i.physical_keys pk)) ∧
    (∀ lk, i.update_keys.logical_keys lk = ageEntrySpec (i.logical_keys lk)) ∧
    (∀ mb, i.update_keys.mouse_buttons mb = ageEntrySpec (i.mouse_buttons mb)) ∧
    (∀ pk, i.update_keys.physical_keys pk ≠ some .Released) ∧
    (∀ lk, i.update_keys.logical_keys lk ≠ some .Released) ∧
    (∀ mb, i.update_keys.mouse_buttons mb ≠ some .Released) := by
  refine ⟨fun pk => rfl, fun lk => rfl, fun mb => rfl, ?_, ?_, ?_⟩
  · intro pk
    show ageMap i.physical_keys pk ≠ some .Released
    rw [ageMap]
    cases hm : i.physical_keys pk with
    | none => simp
    | some s => cases s <;> simp
  · intro lk
    show ageMap i.logical_keys lk ≠ some .Released
    rw [ageMap]
    cases hm : i.logical_keys lk with
    | none => simp
    | some s => cases s <;> simp
  · intro mb
    show ageMap i.mouse_buttons mb ≠ some .Released
    rw [ageMap]
    cases hm : i.mouse_buttons mb with
    | none => simp
    | some s => cases s <;> simp

/-- Claim C6: a `Key` event with the repeat flag leaves the whole tracker
state unchanged; in particular Press(A), age, repeat-Press(A) leaves key A
`Down` (in both key maps), not `Pressed`. -/
theorem C6_repeat_events_dropped :
    (∀ (P L M : Type) [DecidableEq P] [DecidableEq L] [DecidableEq M]
        (i : Input P L M) (pk : P) (lk : Option L) (st : InputState),
      i.process_event (.Key pk lk true st) = i) ∧
    ((((Input.new (P := Nat) (L := Nat) (M := Nat)).process_event
            (.Key 0 (some 0) false .Pressed)).update_keys.process_event
          (.Key 0 (some 0) true .Pressed)).physical_keys 0 = some .Down ∧
      (((Input.new (P := Nat) (L := Nat) (M := Nat)).process_event
            (.Key 0 (some 0) false .Pressed)).update_keys.process_event
          (.Key 0 (some 0) true .Pressed)).logical_keys 0 = some .Down) := by
  constructor
  · intro P L M _ _ _ i pk lk st
    rfl
  · constructor
    · decide
    · decide

/-- One step of driving the tracker: process one converted event, run the
end-of-frame aging pass, or reset. -/
inductive InputOp (P L M : Type) where
  | ev (e : InputEvent P L M)
  | age
  | clearAll

/-- Apply one tracker operation. -/
def applyOp {P L M : Type} [DecidableEq P] [DecidableEq L] [DecidableEq M]
    (i : Input P L M) : InputOp P L M → Input P L M
  | .ev e => i.process_event e
  | .age => i.update_keys
  | .clearAll => i.clear

/-- Apply a sequence of tracker operations, left to right. -/
def applyOps {P L M : Type} [DecidableEq P] [DecidableEq L] [DecidableEq M]
    (i : Input P L M) (ops : List (InputOp P L M)) : Input P L M :=
  ops.foldl applyOp i

/-- Does this operation carry a non-repeat `Key` event for physical key `k`
(of either state)?  Only such operations can touch `physical_keys k`. -/
def touchesPhysical {P L M : Type} [DecidableEq P] (k : P) :
    InputOp P L M → Bool
  | .ev (.Key pk _ rep _) => !rep && decide (pk = k)
  | _ => false

/-- Does this operation carry a non-repeat `Key` event whose logical key is
`k`? -/
def touchesLogical {P L M : Type} [DecidableEq L] (k : L) :
    InputOp P L M → Bool
  | .ev (.Key _ (some lk) rep _) => !rep && decide (lk = k)
  | _ => false

/-- Does this operation carry a `MouseButton` event for button `k`? -/
def touchesMouse {P L M : Type} [DecidableEq M] (k : M) :
    InputOp P L M → Bool
  | .ev (.MouseButton b _) => decide (b = k)
  | _ => false

theorem applyOp_physical_none {P L M : Type} [DecidableEq P] [DecidableEq L]
    [DecidableEq M] (i : Input P L M) (op : InputOp P L M) (k : P)
    (h : i.physical_keys k = none) (ht : touchesPhysical k op = false) :
    (applyOp i op).physical_keys k = none := by
  cases op with
  | age =>
    show ageMap i.physical_keys k = none
    rw [ageMap, h]
  | clearAll => rfl
  | ev e =>
    cases e with
    | Modifiers mods => exact h
    | MouseMoved x y => exact h
    | MouseScroll x y => exact h
    | MouseButton b st => exact h
    | Key pk lk rep st =>
      rw [touchesPhysical] at ht
      cases rep with
      | true => exact h
      | false =>
        have hne : pk ≠ k := by
          simp only [Bool.not_false, Bool.true_and, decide_eq_false_iff_not] at ht
          exact ht
        show mapInsert i.physical_keys pk st k = none
        rw [mapInsert, if_neg (fun hkk => hne hkk.symm), h]

theorem applyOp_logical_none {P L M : Type} [DecidableEq P] [DecidableEq L]
    [DecidableEq M] (i : Input P L M) (op : InputOp P L M) (k : L)
    (h : i.logical_keys k = none) (ht : touchesLogical k op = false) :
    (applyOp i op).logical_keys k = none := by
  cases op with
  | age =>
    show ageMap i.logical_keys k = none
    rw [ageMap, h]
  | clearAll => rfl
  | ev e =>
    cases e with
    | Modifiers mods => exact h
    | MouseMoved x y => exact h
    | MouseScroll x y => exact h
    | MouseButton b st => exact h
    | Key pk lk rep st =>
      cases lk with
      | none =>
        cases rep with
        | true => exact h
        | false => exact h
      | some l =>
        rw [touchesLogical] at ht
        cases rep with
        | true => exact h
        | false =>
          have hne : l ≠ k := by
            simp only [Bool.not_false, Bool.true_and, decide_eq_false_iff_not] at ht
            exact ht
          show mapInsert i.logical_keys l st k = none
          rw [mapInsert, if_neg (fun hkk => hne hkk.symm), h]

theorem applyOp_mouse_none {P L M : Type} [DecidableEq P] [DecidableEq L]
    [DecidableEq M] (i : Input P L M) (op : InputOp P L M) (k : M)
    (h : i.mouse_buttons k = none) (ht : touchesMouse k op = false) :
    (applyOp i op).mouse_buttons k = none := by
  cases op with
  | age =>
    show ageMap i.mouse_buttons k = none
    rw [ageMap, h]
  | clearAll => rfl
  | ev e =>
    cases e with
    | Modifiers mods => exact h
    | MouseMoved x y => exact h
    | MouseScroll x y => exact h
    | Key pk lk rep st =>
      cases rep with
      | true => exact h
      | false => exact h
    | MouseButton b st =>
      rw [touchesMouse] at ht
      have hne : b ≠ k := by
        simp only [decide_eq_false_iff_not] at ht
        exact ht
      show mapInsert i.mouse_buttons b st k = none
      rw [mapInsert, if_neg (fun hkk => hne hkk.symm), h]

/-- Claim C9 (amended): map entries are created only by non-repeat `Key`
events for that key (of either state: a `Release` for an absent key also
creates an entry!) resp. `MouseButton` events for that button; any sequence
of operations containing no such event for a key leaves an absent key
absent. -/
theorem C9_absent_keys_stay_absent {P L M : Type} [DecidableEq P]
    [DecidableEq L] [DecidableEq M] (ops : List (InputOp P L M))
    (i : Input P L M) (pk : P) (lk : L) (mb : M)
    (h1 : i.physical_keys pk = none)
    (h2 : ∀ op ∈ ops, touchesPhysical pk op = false)
    (h3 : i.logical_keys lk = none)
    (h4 : ∀ op ∈ ops, touchesLogical lk op = false)
    (h5 : i.mouse_buttons mb = none)
    (h6 : ∀ op ∈ ops, touchesMouse mb op = false) :
    (applyOps i ops).physical_keys pk = none ∧
      (applyOps i ops).logical_keys lk = none ∧
      (applyOps i ops).mouse_buttons mb = none := by
  induction ops generalizing i with
  | nil => exact ⟨h1, h3, h5⟩
  | cons op ops ih =>
    have hstep1 := applyOp_physical_none i op pk h1 (h2 op (List.mem_cons_self op ops))
    have hstep3 := applyOp_logical_none i op lk h3 (h4 op (List.mem_cons_self op ops))
    have hstep5 := applyOp_mouse_none i op mb h5 (h6 op (List.mem_cons_self op ops))
    exact ih (applyOp i op) hstep1
      (fun o ho => h2 o (List.mem_cons_of_mem op ho)) hstep3
      (fun o ho => h4 o (List.mem_cons_of_mem op ho)) hstep5
      (fun o ho => h6 o (List.mem_cons_of_mem op ho))

theorem C9_witness :
    ((Input.new (P := Nat) (L := Nat) (M := Nat)).physical_keys 0 = none) ∧
    ((Input.new (P := Nat) (L := Nat) (M := Nat)).logical_keys 0 = none) ∧
    ((Input.new (P := Nat) (L := Nat) (M := Nat)).mouse_buttons 0 = none) ∧
    ((applyOps (Input.new (P := Nat) (L := Nat) (M := Nat))
        [.ev (.Key 1 (some 1) false .Pressed), .age, .ev (.MouseButton 1 .Pressed),
          .ev (.MouseMoved 3 4), .ev (.Key 0 (some 0) true .Pressed)]).physical_keys 0 = none ∧
      (applyOps (Input.new (P := Nat) (L := Nat) (M := Nat))
        [.ev (.Key 1 (some 1) false .Pressed), .age, .ev (.MouseButton 1 .Pressed),
          .ev (.MouseMoved 3 4), .ev (.Key 0 (some 0) true .Pressed)]).logical_keys 0 = none ∧
      (applyOps (Input.new (P := Nat) (L := Nat) (M := Nat))
        [.ev (.Key 1 (some 1) false .Pressed), .age, .ev (.MouseButton 1 .Pressed),
          .ev (.MouseMoved 3 4), .ev (.Key 0 (some 0) true .Pressed)]).mouse_buttons 0 = none) :=
  ⟨rfl, rfl, rfl,
    C9_absent_keys_stay_absent
      [.ev (.Key 1 (some 1) false .Pressed), .age, .ev (.MouseButton 1 .Pressed),
        .ev (.MouseMoved 3 4), .ev (.Key 0 (some 0) true .Pressed)]
      (Input.new (P := Nat) (L := Nat) (M := Nat)) 0 0 0
      rfl (by decide) rfl (by decide) rfl (by decide)⟩

/-- Claim C9, counterexample to the claim as stated: processing a `Release`
event for a key NOT in the map does create an entry — `process_event` inserts
the event's state unconditionally for non-repeat key events, so a fresh
tracker ends up with the key mapped to `Released`. -/
theorem C9_counterexample :
    ¬ (((Input.new (P := Nat) (L := Nat) (M := Nat)).process_event
          (.Key 0 none false .Released)).physical_keys 0 = none) ∧
      ((Input.new (P := Nat) (L := Nat) (M := Nat)).process_event
          (.Key 0 none false .Released)).physical_keys 0 = some .Released :=
  ⟨by decide, by decide⟩

end TinyGameLoop
